import Mathlib

/-!
Shallow embedding of the Intcode virtual machine of `src/lib/intcode.js`
(the three-addressing-mode version with a relative base register), together
with theorems checking the specification against it.

Numbers are modelled as `Int`.  JavaScript stores all values as IEEE
doubles, which are exact on integers of magnitude below 2^53; every
concrete program considered here stays within that range, so `Int` is the
faithful exact model.  JavaScript `x % y` (sign of the dividend) is
`Int.tmod`, and `Math.floor (x / y)` for a positive divisor `y` is
`Int.fdiv`.
-/

namespace Intcode

/-- Memory is a JavaScript array of numbers (`type Memory = Array<number>`):
a finite list of integers, indexed from 0, growable at the end. -/
abbrev Memory := List Int

/-- The three addressing modes (`type Mode` in the source). -/
inductive Mode
  | positional
  | immediate
  | relative
deriving DecidableEq

/-- The typed faults the interpreter can raise.  Each constructor models one
`invariant(...)` or `throw new Error(...)` site of the source:
`negativeAddress` is the `addr must be positive` invariant in `get`;
`invalidAddressMode` is the `Unexpected digit` error in `getMode`, carrying
the offending digit and the operand index; `writeToImmediate` is the
`Mode cannot be immediate for writes` invariant in `put`. -/
inductive Fault
  | negativeAddress (addr : Int)
  | invalidAddressMode (d : Int) (idx : Nat)
  | writeToImmediate (idx : Nat)
deriving DecidableEq

/-- Source `digit(n, idx) = Math.floor(n / 10 ** idx) % 10`, lines 19-21:
the decimal digit of `n` at right-to-left position `idx`.  `Math.floor` of a
real quotient with positive divisor is floor division `Int.fdiv`; the
JavaScript remainder operator keeps the sign of the dividend, which is
`Int.tmod`. -/
def digit (n : Int) (idx : Nat) : Int :=
  (Int.fdiv n (10 ^ idx)) |>.tmod 10

/-- Source `get(addr)`, lines 31-35: a negative address violates the
`addr must be positive` invariant (a thrown fault); otherwise
`mem[addr] || 0` reads the cell, with any address at or past the end of the
array giving 0. -/
def get (mem : Memory) (addr : Int) : Except Fault Int :=
  if addr < 0 then .error (.negativeAddress addr)
  else .ok (mem.getD addr.toNat 0)

/-- Source `getMode(idx)`, lines 46-61: the mode of operand `idx` of
`instruction` is the digit at position `idx + 2`; 0, 1 and 2 select the
three modes and any other digit throws. -/
def getMode (instruction : Int) (idx : Nat) : Except Fault Mode :=
  if digit instruction (idx + 2) = 0 then .ok .positional
  else if digit instruction (idx + 2) = 1 then .ok .immediate
  else if digit instruction (idx + 2) = 2 then .ok .relative
  else .error (.invalidAddressMode (digit instruction (idx + 2)) idx)

/-- Source `read(idx)`, lines 68-81: fetch the raw operand at
`ptr + idx + 1` (this `get` runs before the mode is decoded, matching the
statement order of the source), then resolve it by mode. -/
def read (mem : Memory) (ptr rbase instruction : Int) (idx : Nat) :
    Except Fault Int :=
  match get mem (ptr + (idx : Int) + 1) with
  | .error f => .error f
  | .ok value =>
    match getMode instruction idx with
    | .error f => .error f
    | .ok .immediate => .ok value
    | .ok .relative => get mem (value + rbase)
    | .ok .positional => get mem value

/-- The memory store of source `put`, lines 99-106.  For
`0 <= outaddr < mem.length` the plain assignment updates the cell in
place.  For `outaddr >= mem.length` the source grows the array
(`mem.length = outaddr; mem.fill(0, len)`) and then assigns index
`outaddr`, so the result is the old cells, then `outaddr - len` zero
cells, then the new value, of total length `outaddr + 1`.  For a negative
`outaddr` the source never faults: the JavaScript assignment stores the
value under a non-index property key of the array object, which no array
operation the interpreter performs can observe (`get` rejects negative
addresses, and `length`, `fill` and `join` ignore such keys), so the array
is modelled as unchanged. -/
def putMemRaw (mem : Memory) (outaddr : Int) (value : Int) : Memory :=
  if outaddr < 0 then mem
  else if outaddr.toNat < mem.length then mem.set outaddr.toNat value
  else mem ++ (List.replicate (outaddr.toNat - mem.length) 0 ++ [value])

/-- Source `put(idx, value)`, lines 86-107: decode the mode of operand
`idx` (an invalid digit throws there first), reject Immediate mode, fetch
the raw target address at `ptr + idx + 1`, add the relative base under
Relative mode, and store through `putMemRaw`. -/
def put (mem : Memory) (ptr rbase instruction : Int) (idx : Nat)
    (value : Int) : Except Fault Memory :=
  match getMode instruction idx with
  | .error f => .error f
  | .ok .immediate => .error (.writeToImmediate idx)
  | .ok mode =>
    match get mem (ptr + (idx : Int) + 1) with
    | .error f => .error f
    | .ok outaddr0 =>
      .ok (putMemRaw mem
        (if mode = Mode.relative then outaddr0 + rbase else outaddr0) value)

/-- The mutable machine state of one run of `cpu`: the memory array, the
instruction pointer `ptr`, the relative base `rbase`, plus the I/O
boundary modelled as a queue of pending input integers and the list of
integers emitted so far (in order). -/
structure State where
  mem : Memory
  ptr : Int
  rbase : Int
  inputs : List Int
  outputs : List Int
deriving DecidableEq

/-- The observable result of advancing `cpu` by one instruction.
`running` continues the loop; `halted` is the `return` of opcode 99;
`blocked` models opcode 3 suspended at the interactive prompt waiting for
input; `fault f st` models a thrown `invariant`/`Error` (a rejected
promise reaching the caller) with `st` the machine state at the moment of
the throw; `procExit code st` models the `default:` branch of the opcode
switch, lines 191-198, which dumps diagnostics and terminates the whole
process via `process.exit(2)`. -/
inductive Outcome
  | running (s : State)
  | halted (s : State)
  | blocked (s : State)
  | fault (f : Fault) (s : State)
  | procExit (code : Nat) (s : State)
deriving DecidableEq

/-- The machine state carried by an outcome. -/
def Outcome.state : Outcome → State
  | .running s => s
  | .halted s => s
  | .blocked s => s
  | .fault _ s => s
  | .procExit _ s => s

/-- Shared shape of the opcode 1, 2, 7 and 8 handlers (source lines
111-117, 120-127, 163-169 and 172-178): read two operands, combine them
with `f`, store the result through operand 2 and advance the pointer by
4.  A fault in a read or in the store propagates with the state
unchanged. -/
def binOp (f : Int → Int → Int) (s : State) (instruction : Int) : Outcome :=
  match read s.mem s.ptr s.rbase instruction 0 with
  | .error flt => .fault flt s
  | .ok a =>
    match read s.mem s.ptr s.rbase instruction 1 with
    | .error flt => .fault flt s
    | .ok b =>
      match put s.mem s.ptr s.rbase instruction 2 (f a b) with
      | .error flt => .fault flt s
      | .ok mem2 => .running { s with mem := mem2, ptr := s.ptr + 4 }

/-- One iteration of the `while (true)` loop of `cpu`, lines 38-199: fetch
the instruction at `ptr` (through `get`, so a negative pointer faults and
a pointer past the end fetches 0), take its two low decimal digits as the
opcode, and dispatch. -/
def step (s : State) : Outcome :=
  match get s.mem s.ptr with
  | .error flt => .fault flt s
  | .ok instruction =>
    if instruction.tmod 100 = 1 then
      binOp (fun a b => a + b) s instruction
    else if instruction.tmod 100 = 2 then
      binOp (fun a b => a * b) s instruction
    else if instruction.tmod 100 = 3 then
      match s.inputs with
      | [] => .blocked s
      | v :: rest =>
        match put s.mem s.ptr s.rbase instruction 0 v with
        | .error flt => .fault flt { s with inputs := rest }
        | .ok mem2 =>
          .running { s with mem := mem2, inputs := rest, ptr := s.ptr + 2 }
    else if instruction.tmod 100 = 4 then
      match read s.mem s.ptr s.rbase instruction 0 with
      | .error flt => .fault flt s
      | .ok a =>
        .running { s with outputs := s.outputs ++ [a], ptr := s.ptr + 2 }
    else if instruction.tmod 100 = 5 then
      match read s.mem s.ptr s.rbase instruction 0 with
      | .error flt => .fault flt s
      | .ok cmp =>
        if cmp = 0 then .running { s with ptr := s.ptr + 3 }
        else
          match read s.mem s.ptr s.rbase instruction 1 with
          | .error flt => .fault flt s
          | .ok t => .running { s with ptr := t }
    else if instruction.tmod 100 = 6 then
      match read s.mem s.ptr s.rbase instruction 0 with
      | .error flt => .fault flt s
      | .ok cmp =>
        if cmp = 0 then
          match read s.mem s.ptr s.rbase instruction 1 with
          | .error flt => .fault flt s
          | .ok t => .running { s with ptr := t }
        else .running { s with ptr := s.ptr + 3 }
    else if instruction.tmod 100 = 7 then
      binOp (fun a b => if a < b then 1 else 0) s instruction
    else if instruction.tmod 100 = 8 then
      binOp (fun a b => if a = b then 1 else 0) s instruction
    else if instruction.tmod 100 = 9 then
      match read s.mem s.ptr s.rbase instruction 0 with
      | .error flt => .fault flt s
      | .ok a =>
        .running { s with rbase := s.rbase + a, ptr := s.ptr + 2 }
    else if instruction.tmod 100 = 99 then .halted s
    else .procExit 2 s

/-- Run the loop for at most `fuel` iterations; a run that is still going
when the fuel ends is reported as `running`.  Every concrete program below
is given ample fuel and reaches `halted` (or `procExit`) well within
it. -/
def cpuRun : Nat → State → Outcome
  | 0, s => .running s
  | Nat.succ fuel, s =>
    match step s with
    | .running s2 => cpuRun fuel s2
    | o => o

/-- The state `cpu(mem)` starts from: pointer 0, relative base 0, no
output yet, with `inputs` the integers the input source will provide. -/
def initState (prog : List Int) (inputs : List Int) : State :=
  ⟨prog, 0, 0, inputs, []⟩

/-- The opcodes the `switch` of `cpu` handles; every other opcode reaches
the `default:` branch. -/
def supportedOp (op : Int) : Bool :=
  op = 1 || op = 2 || op = 3 || op = 4 || op = 5 || op = 6 || op = 7 ||
  op = 8 || op = 9 || op = 99

/-- The 16-integer self-replicating program of the specification. -/
def quineProg : List Int :=
  [109, 1, 204, -1, 1001, 100, 1, 100, 1008, 100, 16, 101, 1006, 101, 0, 99]

/-! ## Helper lemmas -/

/-- A store through `putMemRaw` never shrinks the array. -/
theorem putMemRaw_length_mono (mem : Memory) (outaddr value : Int) :
    mem.length ≤ (putMemRaw mem outaddr value).length := by
  unfold putMemRaw
  split_ifs with h1 h2
  · exact le_refl _
  · simp
  · simp only [List.length_append, List.length_replicate, List.length_cons,
      List.length_nil]
    omega

/-- A successful `put` never shrinks the array. -/
theorem put_ok_length_mono (mem : Memory) (ptr rbase instruction : Int)
    (idx : Nat) (value : Int) (mem2 : Memory)
    (h : put mem ptr rbase instruction idx value = .ok mem2) :
    mem.length ≤ mem2.length := by
  unfold put at h
  split at h
  · exact Except.noConfusion h
  · exact Except.noConfusion h
  · split at h
    · exact Except.noConfusion h
    · rw [Except.ok.injEq] at h
      rw [← h]
      exact putMemRaw_length_mono _ _ _

/-- `binOp` never reaches the `default:` branch of the opcode switch. -/
theorem binOp_ne_procExit (f : Int → Int → Int) (s : State)
    (instruction : Int) (c : Nat) (st : State) :
    binOp f s instruction ≠ .procExit c st := by
  intro h
  unfold binOp at h
  split at h
  · exact Outcome.noConfusion h
  · split at h
    · exact Outcome.noConfusion h
    · split at h
      · exact Outcome.noConfusion h
      · exact Outcome.noConfusion h

/-- A `binOp` outcome carries an array at least as long as the one it
started from. -/
theorem binOp_mem_mono (f : Int → Int → Int) (s : State) (instruction : Int) :
    s.mem.length ≤ ((binOp f s instruction).state).mem.length := by
  unfold binOp
  split
  · exact le_refl _
  · split
    · exact le_refl _
    · split
      · exact le_refl _
      · next mem2 heq =>
        exact put_ok_length_mono _ _ _ _ _ _ _ heq

set_option maxHeartbeats 1000000 in
/-- One interpreter step never shrinks the array. -/
theorem step_mem_mono (s : State) :
    s.mem.length ≤ ((step s).state).mem.length := by
  unfold step
  split
  · exact le_refl _
  · split_ifs
    · exact binOp_mem_mono _ _ _
    · exact binOp_mem_mono _ _ _
    · split
      · exact le_refl _
      · split
        · exact le_refl _
        · next mem2 heq =>
          exact put_ok_length_mono _ _ _ _ _ _ _ heq
    · split
      · exact le_refl _
      · exact le_refl _
    · split
      · exact le_refl _
      · split
        · exact le_refl _
        · split
          · exact le_refl _
          · exact le_refl _
    · split
      · exact le_refl _
      · split
        · split
          · exact le_refl _
          · exact le_refl _
        · exact le_refl _
    · exact binOp_mem_mono _ _ _
    · exact binOp_mem_mono _ _ _
    · split
      · exact le_refl _
      · exact le_refl _
    · exact le_refl _
    · exact le_refl _

/-- Across any number of interpreter steps the array never shrinks. -/
theorem cpuRun_mem_mono (fuel : Nat) (s : State) :
    s.mem.length ≤ ((cpuRun fuel s).state).mem.length := by
  induction fuel generalizing s with
  | zero => exact le_refl _
  | succ n ih =>
    unfold cpuRun
    split
    · next s2 heq =>
      refine le_trans ?_ (ih s2)
      have h := step_mem_mono s
      rw [heq] at h
      exact h
    · exact step_mem_mono s

/-! ## Claim theorems -/

/-- C1, counterexample: running the one-cell program `[0]` fetches opcode
0, which is not in the supported set, and the run ends in
`procExit 2` — the `default:` branch of the source calls
`process.exit(2)`, an uncontrolled termination of the whole process — not
in a typed fault result.  This refutes the claim that no fault path ever
causes an uncontrolled process termination. -/
theorem invalid_opcode_exits_process :
    cpuRun 10 (initState [0] []) = Outcome.procExit 2 (initState [0] []) := by
  rfl

/-- C2, counterexample: the program `[21101, 5, 5, -10, 99]` executes an
add whose destination operand is in Relative mode with stored offset -10
and relative base 0, so the computed write address is -10, yet the run
halts normally with memory unchanged: the negative write address raises
no fault at all. -/
theorem negative_write_address_no_fault :
    cpuRun 10 (initState [21101, 5, 5, -10, 99] []) =
      Outcome.halted ⟨[21101, 5, 5, -10, 99], 4, 0, [], []⟩ := by rfl

/-- C2, amended: a negative address on a read faults (`NegativeAddress`);
a negative computed address on a write is not detected — the value is
silently stored under a non-index property of the array, unobservable by
every later memory operation, modelled as leaving the array unchanged —
and execution continues. -/
theorem negative_read_faults_negative_write_dropped (mem : Memory)
    (addr v : Int) (h : addr < 0) :
    get mem addr = .error (.negativeAddress addr) ∧
    putMemRaw mem addr v = mem := by
  constructor
  · simp [get, h]
  · simp [putMemRaw, h]

/-- Witness for the amended C2 statement at memory `[3]`, address -1. -/
theorem negative_read_faults_negative_write_dropped_witness :
    get [3] (-1) = .error (.negativeAddress (-1)) ∧
    putMemRaw [3] (-1) 7 = [3] :=
  negative_read_faults_negative_write_dropped [3] (-1) 7 (by decide)

/-- C3: for a non-negative address at or beyond the current extent,
reading returns 0 and never faults, and writing grows the backing
storage to `addr + 1`, zero-fills every newly created cell, and stores
the value at `addr`. -/
theorem read_write_beyond_extent (mem : Memory) (addr v : Int)
    (h0 : 0 ≤ addr) (h : mem.length ≤ addr.toNat) :
    get mem addr = .ok 0 ∧
    (putMemRaw mem addr v).length = addr.toNat + 1 ∧
    (∀ i : Nat, mem.length ≤ i → i < addr.toNat →
      (putMemRaw mem addr v).getD i 0 = 0) ∧
    (putMemRaw mem addr v).getD addr.toNat 0 = v := by
  have hneg : ¬ addr < 0 := not_lt.mpr h0
  have hlt : ¬ addr.toNat < mem.length := by omega
  refine ⟨?_, ?_, ?_, ?_⟩
  · unfold get
    rw [if_neg hneg, List.getD_eq_default _ _ h]
  · simp only [putMemRaw, if_neg hneg, if_neg hlt, List.length_append,
      List.length_replicate, List.length_cons, List.length_nil]
    omega
  · intro i hi1 hi2
    simp only [putMemRaw, if_neg hneg, if_neg hlt,
      List.getD_eq_getElem?_getD, List.getElem?_append]
    rw [if_neg (by omega)]
    simp only [List.length_replicate]
    rw [if_pos (by omega)]
    simp [List.getElem?_replicate,
      show i - mem.length < addr.toNat - mem.length from by omega]
  · simp only [putMemRaw, if_neg hneg, if_neg hlt,
      List.getD_eq_getElem?_getD, List.getElem?_append,
      List.length_replicate]
    rw [if_neg (by omega)]
    simp [Nat.sub_self]

/-- Witness for C3 at memory `[1, 2]`, address 5, value 9. -/
theorem read_write_beyond_extent_witness :
    get [1, 2] 5 = .ok 0 ∧
    (putMemRaw [1, 2] 5 9).length = 6 ∧
    (∀ i : Nat, 2 ≤ i → i < 5 → (putMemRaw [1, 2] 5 9).getD i 0 = 0) ∧
    (putMemRaw [1, 2] 5 9).getD 5 0 = 9 := by
  have h := read_write_beyond_extent [1, 2] 5 9 (by decide) (by decide)
  exact ⟨h.1, h.2.1, fun i h2 h5 => h.2.2.1 i h2 h5, h.2.2.2⟩

/-- C4: reading operand `idx` fetches the raw stored value at address
`ptr + idx + 1` and resolves it by mode: Immediate returns the raw value
itself, Positional reads memory at the raw value taken as an address, and
Relative reads memory at the relative base plus the raw stored offset. -/
theorem operand_read_resolution (mem : Memory) (ptr rbase instruction : Int)
    (idx : Nat) (raw : Int)
    (hraw : get mem (ptr + (idx : Int) + 1) = .ok raw) :
    (getMode instruction idx = .ok .immediate →
      read mem ptr rbase instruction idx = .ok raw) ∧
    (getMode instruction idx = .ok .positional →
      read mem ptr rbase instruction idx = get mem raw) ∧
    (getMode instruction idx = .ok .relative →
      read mem ptr rbase instruction idx = get mem (raw + rbase)) := by
  refine ⟨?_, ?_, ?_⟩ <;> intro hm <;> simp [read, hraw, hm]

/-- Witness for C4: program `[102, 5, 0, 0, 0, 42]` at pointer 0, operand
0 of instruction 102 is Immediate and reads its raw value 5. -/
theorem operand_read_resolution_witness :
    read [102, 5, 0, 0, 0, 42] 0 0 102 0 = .ok 5 :=
  (operand_read_resolution [102, 5, 0, 0, 0, 42] 0 0 102 0 5 (by rfl)).1
    (by rfl)

/-- C8: the two big-number programs emit exactly the expected single
outputs, with no precision loss: the first computes and emits
34915192 squared, the second emits the literal 1125899906842624. -/
theorem big_number_outputs_exact :
    cpuRun 50 (initState [1102, 34915192, 34915192, 7, 4, 7, 99, 0] []) =
      Outcome.halted ⟨[1102, 34915192, 34915192, 7, 4, 7, 99, 1219070632396864],
        6, 0, [], [1219070632396864]⟩ ∧
    cpuRun 50 (initState [104, 1125899906842624, 99] []) =
      Outcome.halted ⟨[104, 1125899906842624, 99], 2, 0, [], [1125899906842624]⟩ ∧
    (1219070632396864 : Int) = 34915192 * 34915192 := by
  refine ⟨by rfl, by rfl, by norm_num⟩

/-- Auxiliary for C6: `put` rejects an Immediate-mode destination before
touching memory. -/
theorem put_immediate_error (mem : Memory) (ptr rbase instruction : Int)
    (idx : Nat) (value : Int) (h : getMode instruction idx = .ok .immediate) :
    put mem ptr rbase instruction idx value = .error (.writeToImmediate idx) := by
  unfold put
  rw [h]

set_option maxHeartbeats 1000000 in
/-- C1, amended: the faults of the source (negative address, invalid mode
digit, write to an Immediate operand) terminate the run as thrown typed
faults surfaced to the caller, but an unsupported opcode instead reaches
the `default:` branch, which terminates the whole process with exit code
2 after dumping diagnostics: whenever a step ends in `procExit`, the exit
code is 2, the state is the untouched entry state, and the fetched
instruction decodes to an opcode outside the supported set. -/
theorem process_exit_only_unsupported_opcode (s : State) (c : Nat)
    (st : State) (h : step s = Outcome.procExit c st) :
    c = 2 ∧ st = s ∧
    ∃ instruction, get s.mem s.ptr = Except.ok instruction ∧
      supportedOp (instruction.tmod 100) = false := by
  unfold step at h
  split at h
  · exact Outcome.noConfusion h
  · next instruction heq =>
    split_ifs at h with h1 h2 h3 h4 h5 h6 h7 h8 h9 h99
    all_goals try exact absurd h (binOp_ne_procExit _ _ _ _ _)
    all_goals repeat' split at h
    all_goals try exact Outcome.noConfusion h
    injection h with hc hst
    refine ⟨hc.symm, hst.symm, instruction, heq, ?_⟩
    simp [supportedOp, h1, h2, h3, h4, h5, h6, h7, h8, h9, h99]

/-- Witness for the amended C1 statement: the step taken on program `[0]`
ends in `procExit` and its opcode 0 is unsupported. -/
theorem process_exit_only_unsupported_opcode_witness :
    2 = 2 ∧ initState [0] [] = initState [0] [] ∧
    ∃ instruction,
      get (initState [0] []).mem (initState [0] []).ptr =
        Except.ok instruction ∧
      supportedOp (instruction.tmod 100) = false :=
  process_exit_only_unsupported_opcode (initState [0] []) 2
    (initState [0] []) (by rfl)

/-- C5: the decoded opcode is the two least-significant decimal digits of
the instruction (stated for non-negative instructions, where that phrase
is well defined), operand `i` takes its mode from decimal digit `i + 2`
(computed as `floor (n / 10 ^ i) mod 10`, with the JavaScript truncated
remainder), digits 0, 1 and 2 decode to Positional, Immediate and
Relative, and any other digit is an `InvalidAddressMode` decode fault
carrying the offending digit and the operand index. -/
theorem instruction_decode (n : Int) (i : Nat) :
    digit n i = (Int.fdiv n (10 ^ i)).tmod 10 ∧
    (0 ≤ n → n.tmod 100 = 10 * digit n 1 + digit n 0) ∧
    (digit n (i + 2) = 0 → getMode n i = .ok .positional) ∧
    (digit n (i + 2) = 1 → getMode n i = .ok .immediate) ∧
    (digit n (i + 2) = 2 → getMode n i = .ok .relative) ∧
    (digit n (i + 2) ≠ 0 → digit n (i + 2) ≠ 1 → digit n (i + 2) ≠ 2 →
      getMode n i = .error (.invalidAddressMode (digit n (i + 2)) i)) := by
  refine ⟨rfl, ?_, ?_, ?_, ?_, ?_⟩
  · intro h
    have t1 : n.tmod 100 = n % 100 := Int.tmod_eq_emod h (by norm_num)
    have t2 : n.tmod 10 = n % 10 := Int.tmod_eq_emod h (by norm_num)
    have t3 : (n / 10).tmod 10 = n / 10 % 10 :=
      Int.tmod_eq_emod (Int.ediv_nonneg h (by norm_num)) (by norm_num)
    have f1 : n.fdiv 1 = n := by
      rw [Int.fdiv_eq_ediv n (by norm_num), Int.ediv_one]
    have f10 : n.fdiv 10 = n / 10 := Int.fdiv_eq_ediv n (by norm_num)
    unfold digit
    rw [pow_zero, pow_one, f1, f10, t1, t2, t3]
    omega
  · intro hd
    simp [getMode, hd]
  · intro hd
    simp [getMode, hd]
  · intro hd
    simp [getMode, hd]
  · intro hd0 hd1 hd2
    simp [getMode, hd0, hd1, hd2]

/-- Witness for C5 at instruction 21102, operand 0, whose mode digit is 1
(Immediate). -/
theorem instruction_decode_witness :
    (21102 : Int).tmod 100 = 10 * digit 21102 1 + digit 21102 0 ∧
    getMode 21102 0 = .ok .immediate :=
  ⟨(instruction_decode 21102 0).2.1 (by norm_num),
    (instruction_decode 21102 0).2.2.2.1 (by decide)⟩

/-- C6: for every result-writing instruction (opcodes 1, 2, 3, 7 and 8),
an Immediate-mode destination operand raises the `WriteToImmediate` fault
and the instruction modifies no memory cell: the state carried by the
fault outcome holds the unchanged memory array (for opcode 3 only the
pending input value has been consumed, exactly as in the source where the
input is awaited before the failing `put`). -/
theorem write_to_immediate_faults (s : State) (instr a b : Int)
    (hfetch : get s.mem s.ptr = .ok instr) :
    ((instr.tmod 100 = 1 ∨ instr.tmod 100 = 2 ∨ instr.tmod 100 = 7 ∨
        instr.tmod 100 = 8) →
      read s.mem s.ptr s.rbase instr 0 = .ok a →
      read s.mem s.ptr s.rbase instr 1 = .ok b →
      getMode instr 2 = .ok .immediate →
      step s = .fault (.writeToImmediate 2) s) ∧
    (instr.tmod 100 = 3 → s.inputs ≠ [] → getMode instr 0 = .ok .immediate →
      step s = .fault (.writeToImmediate 0)
        { s with inputs := s.inputs.tail }) := by
  constructor
  · intro hop hr0 hr1 hm
    unfold step
    rw [hfetch]
    rcases hop with h1 | h1 | h1 | h1 <;>
      simp only [h1] <;>
      norm_num <;>
      unfold binOp <;>
      simp only [hr0, hr1, put_immediate_error _ _ _ _ _ _ hm]
  · intro h3 hne hm
    unfold step
    rw [hfetch]
    simp only [h3]
    norm_num
    rcases hs : s.inputs with _ | ⟨v, rest⟩
    · exact absurd hs hne
    · simp only [hs, put_immediate_error _ _ _ _ _ _ hm, List.tail_cons]

/-- Witness for C6: an add instruction (11101) whose destination mode is
Immediate faults with `WriteToImmediate 2` and leaves the state
untouched. -/
theorem write_to_immediate_faults_witness :
    step ⟨[11101, 2, 3, 0, 99], 0, 0, [], []⟩ =
      Outcome.fault (Fault.writeToImmediate 2)
        ⟨[11101, 2, 3, 0, 99], 0, 0, [], []⟩ :=
  (write_to_immediate_faults ⟨[11101, 2, 3, 0, 99], 0, 0, [], []⟩ 11101 2 3
    (by rfl)).1 (Or.inl (by decide)) (by rfl) (by rfl) (by rfl)

/-- C7: memory growth is monotonic and memory never shrinks: a raw store
never shortens the array; a write beyond the current extent leaves every
previously valid cell exactly as it was; and across any number of
interpreter steps the extent never decreases. -/
theorem memory_growth_monotonic :
    (∀ (mem : Memory) (outaddr value : Int),
      mem.length ≤ (putMemRaw mem outaddr value).length) ∧
    (∀ (mem : Memory) (addr v : Int), 0 ≤ addr → mem.length ≤ addr.toNat →
      ∀ i : Nat, i < mem.length →
        (putMemRaw mem addr v).getD i 0 = mem.getD i 0) ∧
    (∀ (fuel : Nat) (s : State),
      s.mem.length ≤ ((cpuRun fuel s).state).mem.length) := by
  refine ⟨putMemRaw_length_mono, ?_, cpuRun_mem_mono⟩
  intro mem addr v h0 h i hi
  have hneg : ¬ addr < 0 := not_lt.mpr h0
  have hlt : ¬ addr.toNat < mem.length := by omega
  simp only [putMemRaw, if_neg hneg, if_neg hlt,
    List.getD_eq_getElem?_getD, List.getElem?_append]
  rw [if_pos hi]

/-- Witness for C7 at memory `[1, 2]`, a write to address 5, and a short
run of program `[7]`. -/
theorem memory_growth_monotonic_witness :
    ([1, 2] : Memory).length ≤ (putMemRaw [1, 2] 5 9).length ∧
    (putMemRaw [1, 2] 5 9).getD 0 0 = ([1, 2] : Memory).getD 0 0 ∧
    ([7] : Memory).length ≤ ((cpuRun 3 (initState [7] [])).state).mem.length :=
  ⟨memory_growth_monotonic.1 [1, 2] 5 9,
    memory_growth_monotonic.2.1 [1, 2] 5 9 (by norm_num) (by norm_num) 0
      (by norm_num),
    memory_growth_monotonic.2.2 3 (initState [7] [])⟩

/-- C10: when the instruction pointer reaches a non-negative address at
or beyond the current extent, the fetched instruction is 0, whose opcode
0 is not supported, so the step takes the unknown-opcode error path
(diagnostics and process exit 2): the run never silently continues past
the end of the tape and never treats running off the tape as a normal
halt. -/
theorem fetch_beyond_extent_unknown_opcode (s : State)
    (h0 : 0 ≤ s.ptr) (h : s.mem.length ≤ s.ptr.toNat) :
    get s.mem s.ptr = .ok 0 ∧
    step s = .procExit 2 s ∧
    (∀ s2, step s ≠ .halted s2) ∧
    (∀ s2, step s ≠ .running s2) := by
  have hfetch : get s.mem s.ptr = .ok 0 := by
    unfold get
    rw [if_neg (not_lt.mpr h0), List.getD_eq_default _ _ h]
  have hstep : step s = .procExit 2 s := by
    unfold step
    rw [hfetch]
    exact rfl
  refine ⟨hfetch, hstep, ?_, ?_⟩ <;> intro s2 hh <;> rw [hstep] at hh <;>
    exact Outcome.noConfusion hh

/-- Witness for C10: pointer 1 on the one-cell program `[99]` fetches 0
and the step exits through the unknown-opcode path. -/
theorem fetch_beyond_extent_unknown_opcode_witness :
    (0 : Int) ≤ (⟨[99], 1, 0, [], []⟩ : State).ptr ∧
    step ⟨[99], 1, 0, [], []⟩ = Outcome.procExit 2 ⟨[99], 1, 0, [], []⟩ :=
  ⟨by norm_num,
    (fetch_beyond_extent_unknown_opcode ⟨[99], 1, 0, [], []⟩ (by norm_num)
      (by norm_num)).2.1⟩

set_option maxRecDepth 100000 in
set_option maxHeartbeats 1000000 in
/-- C9: the 16-integer self-replicating program halts after emitting, in
order, exactly its own 16 integers as the output sequence (its scratch
cells 100 and 101 grow the memory; cells 0 through 15 stay unchanged). -/
theorem quine_emits_itself :
    cpuRun 300 (initState quineProg []) =
      Outcome.halted
        ⟨quineProg ++ (List.replicate 84 0 ++ [16, 1]), 15, 16, [], quineProg⟩ := by
  rfl

end Intcode
